import Mathlib

/-
Verification model of src/wpa_supplicant_8_lib/driver_cmd_wext.c, the WEXT
driver-command shim of this repository.  C strings are modelled as List Char,
byte buffers as List Nat (each entry one byte), and the relevant pieces of
struct wpa_driver_wext_data / struct wpa_supplicant as explicit record state.
The macros of driver_cmd_wext.h / driver_cmd_common.h are not part of src/,
so they are carried as parameters (record fields) or, where a claim needs a
concrete value, modelled from the spec and documented as such.
-/

set_option maxHeartbeats 1000000
set_option linter.unusedVariables false

namespace DriverCmdWext

/-- ASCII lower-casing of one character, as C tolower restricted to ASCII. -/
def lowerChar (c : Char) : Char :=
  if 65 ≤ c.toNat ∧ c.toNat ≤ 90 then Char.ofNat (c.toNat + 32) else c

/-- Case-insensitive normal form of a C string; os_strcasecmp(a, b) == 0 is
modelled as lcList a = lcList b. -/
def lcList (l : List Char) : List Char := l.map lowerChar

/-- Bool test that the second list begins with the first.  Used (after
lcList) to model os_strncasecmp(cmd, lit, strlen lit) == 0, and to model one
position of the os_strstr search. -/
def listStartsWith : List Char → List Char → Bool
  | [], _ => true
  | _ :: _, [] => false
  | p :: ps, c :: cs => p == c && listStartsWith ps cs

/-- C isspace on the ASCII range (space, tab, nl, vt, ff, cr), as skipped by
atoi. -/
def isSpaceC (c : Char) : Bool := decide (c.toNat = 32 ∨ (9 ≤ c.toNat ∧ c.toNat ≤ 13))

/-- ASCII decimal-digit test. -/
def isDigitC (c : Char) : Bool := decide (48 ≤ c.toNat ∧ c.toNat ≤ 57)

/-- Accumulate leading decimal digits, stopping at the first non-digit:
the digit loop of C atoi. -/
def digitsVal : List Char → Nat → Nat
  | [], acc => acc
  | c :: rest, acc => if isDigitC c then digitsVal rest (acc * 10 + (c.toNat - 48)) else acc

/-- C atoi: skip whitespace, optional sign, then decimal digits. -/
def atoi (l : List Char) : Int :=
  match l.dropWhile isSpaceC with
  | '-' :: r => -(digitsVal r 0 : Int)
  | '+' :: r => (digitsVal r 0 : Int)
  | r => (digitsVal r 0 : Int)

/-- Truncating C cast to unsigned 8-bit (u8). -/
def u8 (i : Int) : Nat := (i % 256).toNat

/-- Truncating C cast to unsigned 16-bit (u16). -/
def u16 (i : Int) : Nat := (i % 65536).toNat

/-- os_strstr, returning the suffix just after the first occurrence of pat
(the pattern used in the source, ",TIME=", is nonempty). -/
def strstrAfter (pat : List Char) : List Char → Option (List Char)
  | [] => none
  | c :: rest =>
    if listStartsWith pat (c :: rest) then some ((c :: rest).drop pat.length)
    else strstrAfter pat rest

/-! ### CSCAN parameter encoder (wpa_driver_wext_set_cscan_params) -/

/-- Constants of the CSCAN encoder.  The WEXT_CSCAN_* macros live in
driver_cmd_wext.h, which is not part of src/, so they are kept as
parameters; header is the WEXT_CSCAN_HEADER byte string and its length is
WEXT_CSCAN_HEADER_SIZE. -/
structure CscanConsts where
  header : List Nat
  chanTag : Nat
  pasvTag : Nat
  homeTag : Nat
  typeTag : Nat
  typePassive : Nat
  dwellDef : Nat
  dwellMax : Nat
  homeDwell : Nat

/-- One store buf[bp++] = x on the pair (buffer contents, bp). -/
def put (st : List Nat × Nat) (x : Nat) : List Nat × Nat := (st.1 ++ [x], st.2 + 1)

/-- The channel-repetition loop of wpa_driver_wext_set_cscan_params
(source lines 151-157): while i > 0, break if bp + 12 >= buf_len, else
append one channel section (tag byte, channel byte) and decrement i. -/
def cscanAddChannels (k : CscanConsts) (buf_len : Nat) (channel : Nat) :
    Nat → (List Nat × Nat) → (List Nat × Nat)
  | 0, st => st
  | i + 1, st =>
    if buf_len ≤ st.2 + 12 then st
    else cscanAddChannels k buf_len channel i (put (put st k.chanTag) channel)

/-- Core of wpa_driver_wext_set_cscan_params after parameter parsing
(source lines 144-181), with channel the u8 parsed channel and pasv_dwell
the u16 parsed dwell time.  Returns buffer contents and the returned bp.
Note pasv_dwell - 1 uses Nat subtraction: the parse step never produces 0
here when the default dwell constant is nonzero. -/
def cscanEncode (k : CscanConsts) (buf_len : Nat) (channel pasv_dwell : Nat) :
    List Nat × Nat :=
  let st0 : List Nat × Nat := (k.header, k.header.length)
  let st1 := put (put st0 k.chanTag) channel
  let st2 := if channel ≠ 0 then
      cscanAddChannels k buf_len channel ((pasv_dwell - 1) / k.dwellDef) st1
    else st1
  let pd := if channel ≠ 0 then k.dwellDef else min pasv_dwell k.dwellMax
  let st3 := put (put (put st2 k.pasvTag) (pd % 256)) (pd / 256 % 256)
  let st4 := put (put (put st3 k.homeTag) (k.homeDwell % 256)) (k.homeDwell / 256 % 256)
  put (put st4 k.typeTag) k.typePassive

/-- Parameter parsing of wpa_driver_wext_set_cscan_params (source lines
134-142): optional ",TIME=<dwell>" gives the u16 dwell (0 replaced by the
default), and the channel is the u8 of atoi(cmd + 5).  The source truncates
cmd at the comma before the atoi, which cannot change the result since atoi
stops at the comma anyway. -/
def cscanParse (k : CscanConsts) (cmd : List Char) : Nat × Nat :=
  let pasv : Nat :=
    match strstrAfter (",TIME=".data) cmd with
    | some r => let v := u16 (atoi r); if v = 0 then k.dwellDef else v
    | none => k.dwellDef
  (u8 (atoi (cmd.drop 5)), pasv)

/-- wpa_driver_wext_set_cscan_params (source lines 124-182): parse the
command, then encode.  Returns (buffer contents, returned byte count). -/
def wpa_driver_wext_set_cscan_params (k : CscanConsts) (buf_len : Nat)
    (cmd : List Char) : List Nat × Nat :=
  cscanEncode k buf_len (cscanParse k cmd).1 (cscanParse k cmd).2

/-- Flat byte image of n consecutive channel sections (tag byte then
channel byte), used to state the shape of the encoder output. -/
def chanPairs (t c : Nat) : Nat → List Nat
  | 0 => []
  | n + 1 => t :: c :: chanPairs t c n

/-! ### PNO setup encoder (wpa_driver_set_backgroundscan_params) -/

/-- One configured network as consulted by the PNO loop: struct wpa_ssid
restricted to the fields the source reads (ssid bytes, ssid_len as the list
length, the disabled flag); the next pointer becomes the list structure. -/
structure PnoNet where
  ssid : List Nat
  disabled : Bool

/-- Constants of the PNO setup encoder.  The WEXT_PNO_* macros live in
driver_cmd_wext.h, which is not part of src/, so they are kept as
parameters; header is the WEXT_PNOSETUP_HEADER byte string (its length is
WEXT_PNOSETUP_HEADER_SIZE), cap is WEXT_PNO_MAX_COMMAND_SIZE (the size of
the local buf), amount is WEXT_PNO_AMOUNT, and the remaining fields are the
tag bytes, the fixed hex-field widths and the encoded constants of the
trailing scan-interval / repeat / max-repeat sections. -/
structure PnoConsts where
  header : List Nat
  tlvPref : Nat
  tlvVersion : Nat
  tlvSubversion : Nat
  tlvReserved : Nat
  amount : Nat
  cap : Nat
  ssidTag : Nat
  intervalTag : Nat
  intervalLen : Nat
  interval : Nat
  repeatTag : Nat
  repeatLen : Nat
  repeatVal : Nat
  maxRepeatTag : Nat
  maxRepeatLen : Nat
  maxRepeat : Nat

/-- Modelled from the spec: WEXT_PNO_NONSSID_SECTIONS_SIZE is defined in the
missing header; per the spec the space guard reserves exactly the trailing
fixed sections (one tag byte plus the fixed hex width for each of the
scan-interval, repeat and max-repeat sections). -/
def pnoNonssidSize (k : PnoConsts) : Nat :=
  (1 + k.intervalLen) + (1 + k.repeatLen) + (1 + k.maxRepeatLen)

/-- Eligibility test of the PNO loop (source line 230): the entry is not
disabled and its SSID length is at most IW_ESSID_MAX_SIZE = 32 (constant
modelled from the spec, which fixes the SSID bound at 32 bytes). -/
def pnoElig (n : PnoNet) : Bool := !n.disabled && decide (n.ssid.length ≤ 32)

/-- Fixed-width hex ASCII field as produced by os_snprintf(&buf[bp], len+1,
"%x", v) followed by bp += len: the first len bytes starting at bp.  Bytes
past the formatted text (uninitialized stack memory in C) are modelled as 0. -/
def hexField (v len : Nat) : List Nat :=
  ((Nat.toDigits 16 v).map Char.toNat).take len ++
    List.replicate (len - (Nat.toDigits 16 v).length) 0

/-- Header plus TLV preamble written before the SSID loop (source lines
219-224). -/
def pnoPreamble (k : PnoConsts) : List Nat :=
  k.header ++ [k.tlvPref, k.tlvVersion, k.tlvSubversion, k.tlvReserved]

/-- Trailing sections written after the SSID loop (source lines 241-251):
scan-interval and repeat sections advance bp by 1 + width; the max-repeat
section advances bp by 1 + width + 1, counting the terminating NUL that
os_snprintf stores. -/
def pnoTrailer (k : PnoConsts) : List Nat :=
  k.intervalTag :: hexField k.interval k.intervalLen ++
    k.repeatTag :: hexField k.repeatVal k.repeatLen ++
      k.maxRepeatTag :: (hexField k.maxRepeat k.maxRepeatLen ++ [0])

/-- One serialized SSID section: tag byte, length byte, SSID bytes
(source lines 232-235). -/
def pnoSsidSection (k : PnoConsts) (n : PnoNet) : List Nat :=
  k.ssidTag :: n.ssid.length :: n.ssid

/-- The SSID loop of wpa_driver_set_backgroundscan_params (source lines
226-239): while i < amount and entries remain, break if
bp + 2 + 32 + NONSSID + 1 >= sizeof buf, append the section of an eligible
entry (incrementing i), and advance to the next entry either way. -/
def pnoAddSsids (k : PnoConsts) : List PnoNet → Nat → List Nat → List Nat
  | [], _, b => b
  | n :: rest, i, b =>
    if i < k.amount then
      if k.cap ≤ b.length + 2 + 32 + pnoNonssidSize k + 1 then b
      else if pnoElig n then
        pnoAddSsids k rest (i + 1) (b ++ pnoSsidSection k n)
      else pnoAddSsids k rest i b
    else b

/-- Payload built by wpa_driver_set_backgroundscan_params (source lines
219-251): preamble, SSID sections, trailing sections.  Its length is the
final bp handed to the ioctl. -/
def pnoSetupBuf (k : PnoConsts) (nets : List PnoNet) : List Nat :=
  pnoAddSsids k nets 0 (pnoPreamble k) ++ pnoTrailer k

/-- Declarative image of the SSID sections the loop is expected to emit:
the first amount eligible entries, in list order, each serialized as one
SSID section. -/
def pnoClaimSections (k : PnoConsts) (nets : List PnoNet) : List Nat :=
  (((nets.filter pnoElig).take k.amount).map (pnoSsidSection k)).flatten

/-! ### Driver state, error counter and command dispatcher -/

/-- The fields of struct wpa_driver_wext_data that this file reads or
writes: the started flag, the consecutive-error counter and the bgscan
flag. -/
structure DrvState where
  driver_is_started : Bool
  errors : Nat
  bgscan_enabled : Bool
deriving DecidableEq

/-- The fields of struct wpa_supplicant consulted by the CSCAN gate:
the scanning flag and the wpa_state enumeration value. -/
structure SuppState where
  scanning : Bool
  wpa_state : Nat
deriving DecidableEq

/-- Constants consumed by the dispatcher that live in headers outside src/:
the RSSI_CMD / LINKSPEED_CMD rewrite strings, the scan-channel counts, the
error threshold DRV_NUMBER_SEQUENTIAL_ERRORS, the WPA_SCANNING and
WPA_COMPLETED enumeration values, and the encoder constants. -/
structure DrvParams where
  rssiCmd : List Char
  linkspeedCmd : List Char
  etsi : Int
  mkk1 : Int
  thresh : Nat
  wpaScanning : Nat
  wpaCompleted : Nat
  pno : PnoConsts
  cscan : CscanConsts

/-- Payload of the WPA_EVENT_DRIVER_STATE "HANGED" message. -/
def hangedMsg : List Char := "HANGED".data

/-- wpa_driver_get_country_code (source lines 184-193), with the two
channel-count constants as parameters: ETSI maps to EU, MKK1 to JP, any
other count to US. -/
def wpa_driver_get_country_code (etsi mkk1 channels : Int) : List Char :=
  if channels = etsi then ("EU".data)
  else if channels = mkk1 then ("JP".data)
  else ("US".data)

/-- Result of wpa_driver_set_backgroundscan_params: return value, updated
driver state, emitted driver-state events, and the payload handed to the
SIOCSIWPRIV ioctl. -/
structure BgResult where
  ret : Int
  drv : DrvState
  events : List (List Char)
  payload : List Nat
deriving DecidableEq

/-- wpa_driver_set_backgroundscan_params (source lines 195-272).  The
configured-network list is None when drv, drv->ctx or wpa_s->conf is NULL
(the three early -1 returns); pnoRet is the result of the SIOCSIWPRIV
ioctl.  On failure the error counter is incremented and, past the
threshold, reset to 0 with one HANGED event; on success it is reset to 0. -/
def wpa_driver_set_backgroundscan_params (P : DrvParams) :
    Option (List PnoNet) → Int → DrvState → BgResult
  | none, _, drv => ⟨-1, drv, [], []⟩
  | some ns, pnoRet, drv =>
    if pnoRet < 0 then
      if P.thresh < drv.errors + 1 then
        ⟨pnoRet, { drv with errors := 0 }, [hangedMsg], pnoSetupBuf P.pno ns⟩
      else
        ⟨pnoRet, { drv with errors := drv.errors + 1 }, [], pnoSetupBuf P.pno ns⟩
    else
      ⟨pnoRet, { drv with errors := 0 }, [], pnoSetupBuf P.pno ns⟩

/-- Result of wpa_driver_wext_driver_cmd: return value, updated driver
state, emitted driver-state events, whether the SIOCSIWPRIV ioctl of this
function was issued, whether the scan timeout was registered and the
session marked scanning, whether the post-ioctl failure branch (error
counter increment, possible HANGED) executed, the CSCAN payload when the
encoder ran, and the final (possibly rewritten) command string. -/
structure CmdResult where
  ret : Int
  drv : DrvState
  events : List (List Char)
  ioctlIssued : Bool
  timeoutRegistered : Bool
  notifiedScanning : Bool
  failBranch : Bool
  cscanPayload : Option (List Nat × Nat)
  cmdFinal : List Char
deriving DecidableEq

/-- Outcome of the rewrite cascade (source lines 288-312): either an early
return from the function, or continuation with a possibly rewritten
command, updated driver state and events emitted so far. -/
inductive RewriteOut where
  | early (r : CmdResult)
  | go (cmd : List Char) (drv : DrvState) (events : List (List Char))

/-- The rewrite cascade of wpa_driver_wext_driver_cmd (source lines
288-312): RSSI-APPROX becomes RSSI_CMD; SCAN-CHANNELS<n> becomes
COUNTRY <code>; STOP only brings the interface down here; RELOAD emits
HANGED and returns 0; BGSCAN-START runs the PNO setup, propagating a
negative result, else rewriting to PNOFORCE 1 and setting the bgscan flag;
BGSCAN-STOP rewrites to PNOFORCE 0 and clears the flag. -/
def dispatchRewrite (P : DrvParams) (drv : DrvState)
    (nets : Option (List PnoNet)) (pnoRet : Int) (cmd : List Char) : RewriteOut :=
  if lcList cmd = ("rssi-approx".data) then .go P.rssiCmd drv []
  else if listStartsWith ("scan-channels".data) (lcList cmd) then
    .go (("COUNTRY ".data) ++
      wpa_driver_get_country_code P.etsi P.mkk1 (atoi (cmd.drop 13))) drv []
  else if lcList cmd = ("stop".data) then .go cmd drv []
  else if lcList cmd = ("reload".data) then
    .early ⟨0, drv, [hangedMsg], false, false, false, false, none, cmd⟩
  else if lcList cmd = ("bgscan-start".data) then
    if (wpa_driver_set_backgroundscan_params P nets pnoRet drv).ret < 0 then
      .early ⟨(wpa_driver_set_backgroundscan_params P nets pnoRet drv).ret,
        (wpa_driver_set_backgroundscan_params P nets pnoRet drv).drv,
        (wpa_driver_set_backgroundscan_params P nets pnoRet drv).events,
        false, false, false, false, none, cmd⟩
    else
      .go ("PNOFORCE 1".data)
        { (wpa_driver_set_backgroundscan_params P nets pnoRet drv).drv with
            bgscan_enabled := true }
        (wpa_driver_set_backgroundscan_params P nets pnoRet drv).events
  else if lcList cmd = ("bgscan-stop".data) then
    .go ("PNOFORCE 0".data) { drv with bgscan_enabled := false } []
  else .go cmd drv []

/-- The post-ioctl stage of wpa_driver_wext_driver_cmd (source lines
331-369), taking the value of ret at line 340.  A negative ret runs the
failure branch (error counter, possible HANGED); otherwise the counter is
reset and specific commands return strlen(buf) or flip the started flag or
register the scan timeout and scanning notification. -/
def postIoctl (P : DrvParams) (drv : DrvState) (evs : List (List Char))
    (cmd : List Char) (cp : Option (List Nat × Nat)) (r : Int) : CmdResult :=
  if r < 0 then
    let e := drv.errors + 1
    if P.thresh < e then
      ⟨r, { drv with errors := 0 }, evs ++ [hangedMsg], true, false, false, true, cp, cmd⟩
    else
      ⟨r, { drv with errors := e }, evs, true, false, false, true, cp, cmd⟩
  else
    if lcList cmd = lcList P.rssiCmd ∨ lcList cmd = lcList P.linkspeedCmd ∨
       lcList cmd = ("macaddr".data) ∨ lcList cmd = ("getpower".data) ∨
       lcList cmd = ("getband".data) then
      ⟨(cmd.length : Int), { drv with errors := 0 }, evs, true, false, false, false, cp, cmd⟩
    else if lcList cmd = ("start".data) then
      ⟨0, { drv with errors := 0, driver_is_started := true }, evs,
        true, false, false, false, cp, cmd⟩
    else if lcList cmd = ("stop".data) then
      ⟨0, { drv with errors := 0, driver_is_started := false }, evs,
        true, false, false, false, cp, cmd⟩
    else if listStartsWith ("cscan".data) (lcList cmd) then
      ⟨0, { drv with errors := 0 }, evs, true, true, true, false, cp, cmd⟩
    else
      ⟨0, { drv with errors := 0 }, evs, true, false, false, false, cp, cmd⟩

/-- The stage of wpa_driver_wext_driver_cmd after the rewrite cascade
(source lines 314-370): the CSCAN gate (only scan when not already
scanning and the supplicant state is at most WPA_SCANNING or at least
WPA_COMPLETED, otherwise return 0 without the ioctl), then the ioctl and
the post-ioctl stage.  The source discards the ioctl result and continues
with ret = 0 (line 338, "All command fail. (Allways OK for USB Dongle)"),
which is why postIoctl is applied to 0 and not to the ioctl result. -/
def afterRewrite (P : DrvParams) (s : SuppState) (buf_len : Nat)
    (cmd1 : List Char) (drv1 : DrvState) (evs : List (List Char)) : CmdResult :=
  if listStartsWith ("cscan".data) (lcList cmd1) then
    if s.scanning = false ∧
       (s.wpa_state ≤ P.wpaScanning ∨ P.wpaCompleted ≤ s.wpa_state) then
      postIoctl P drv1 evs cmd1
        (some (wpa_driver_wext_set_cscan_params P.cscan buf_len cmd1)) 0
    else
      ⟨0, drv1, evs, false, false, false, false, none, cmd1⟩
  else
    postIoctl P drv1 evs cmd1 none 0

/-- wpa_driver_wext_driver_cmd (source lines 274-371).  ioctlRet is the
result of the SIOCSIWPRIV ioctl at line 329; the override at line 338
discards it (see afterRewrite), so it does not influence the outcome.
The strlen(buf) returned for the query commands is cmd.length, since for
those commands buf holds the copied command string. -/
def wpa_driver_wext_driver_cmd (P : DrvParams) (drv : DrvState) (s : SuppState)
    (nets : Option (List PnoNet)) (pnoRet ioctlRet : Int)
    (cmd : List Char) (buf_len : Nat) : CmdResult :=
  if drv.driver_is_started = false ∧ lcList cmd ≠ ("start".data) then
    ⟨-1, drv, [], false, false, false, false, none, cmd⟩
  else
    match dispatchRewrite P drv nets pnoRet cmd with
    | .early r => r
    | .go cmd1 drv1 evs => afterRewrite P s buf_len cmd1 drv1 evs

/-- Modelled from the spec: WEXT_NUMBER_SCAN_CHANNELS_ETSI is defined in
the missing header driver_cmd_wext.h; the spec identifies 14 as the ETSI
channel count (SCAN-CHANNELS14 rewriting to COUNTRY EU). -/
def WEXT_NUMBER_SCAN_CHANNELS_ETSI : Int := 14

/-- Iterated invocation of wpa_driver_set_backgroundscan_params with a
fixed ioctl outcome, threading the driver state and accumulating the
emitted events: used to express the consecutive-failure behaviour of the
error counter. -/
def bgIterate (P : DrvParams) (nets : Option (List PnoNet)) (pnoRet : Int) :
    Nat → DrvState × List (List Char) → DrvState × List (List Char)
  | 0, st => st
  | n + 1, st =>
    bgIterate P nets pnoRet n
      ((wpa_driver_set_backgroundscan_params P nets pnoRet st.1).drv,
       st.2 ++ (wpa_driver_set_backgroundscan_params P nets pnoRet st.1).events)

/-! ### Concrete constant instances used to instantiate hypotheses -/

/-- Concrete CSCAN constants: section tags are the ASCII bytes C, P, H, T,
the dwell constants follow the source comments (passive default 250, home
dwell 40) and the spec (maximum 3000). -/
def cscanK0 : CscanConsts :=
  { header := [67, 83, 67, 65, 78, 32, 83, 1, 0, 0, 83, 0], chanTag := 67,
    pasvTag := 80, homeTag := 72, typeTag := 84, typePassive := 1,
    dwellDef := 250, dwellMax := 3000, homeDwell := 40 }

/-- Concrete PNO constants: a 16-byte header, TLV bytes S 1 2 0, sixteen
SSID slots, a 280-byte command buffer, tag bytes S T R M and small
hex-field widths. -/
def pnoK0 : PnoConsts :=
  { header := [80, 78, 79, 83, 69, 84, 85, 80, 32, 0, 0, 0, 0, 0, 0, 0],
    tlvPref := 83, tlvVersion := 49, tlvSubversion := 50, tlvReserved := 48,
    amount := 16, cap := 280, ssidTag := 83, intervalTag := 84,
    intervalLen := 2, interval := 30, repeatTag := 82, repeatLen := 1,
    repeatVal := 4, maxRepeatTag := 77, maxRepeatLen := 2, maxRepeat := 7 }

/-- PNO constants with a buffer large enough that the space guard never
fires before all sixteen slots are used. -/
def pnoK1 : PnoConsts := { pnoK0 with cap := 700 }

/-- PNO constants with two SSID slots and ample capacity. -/
def pnoK2 : PnoConsts := { pnoK0 with amount := 2, cap := 300 }

/-- PNO constants with two SSID slots and a buffer so small that the space
guard fires before any SSID section is written. -/
def pnoKSmall : PnoConsts := { pnoK0 with amount := 2, cap := 60 }

/-- Three enabled single-byte-SSID networks. -/
def netsCE : List PnoNet := [⟨[65], false⟩, ⟨[66], false⟩, ⟨[67], false⟩]

/-- Concrete dispatcher constants: RSSI and LINKSPEED rewrite strings, the
FCC/ETSI/MKK1-style channel counts with ETSI = 14 as the spec fixes it, an
error threshold of 4, and WPA_SCANNING = 3 < WPA_COMPLETED = 9. -/
def P0 : DrvParams :=
  { rssiCmd := "RSSI".data, linkspeedCmd := "LINKSPEED".data,
    etsi := WEXT_NUMBER_SCAN_CHANNELS_ETSI, mkk1 := 13, thresh := 4,
    wpaScanning := 3, wpaCompleted := 9, pno := pnoK0, cscan := cscanK0 }

/-! ### Lemmas about the CSCAN encoder -/

theorem chanPairs_length (t c : Nat) : ∀ n, (chanPairs t c n).length = 2 * n := by
  intro n
  induction n with
  | zero => rfl
  | succ n ih => simp [chanPairs, ih]; omega

theorem cscanAddChannels_shape (k : CscanConsts) (bl c : Nat) :
    ∀ (i : Nat) (st : List Nat × Nat), ∃ m, m ≤ i ∧
      cscanAddChannels k bl c i st =
        (st.1 ++ chanPairs k.chanTag c m, st.2 + 2 * m) := by
  intro i
  induction i with
  | zero =>
    intro st
    exact ⟨0, Nat.le_refl 0, by simp [cscanAddChannels, chanPairs]⟩
  | succ i ih =>
    intro st
    by_cases hb : bl ≤ st.2 + 12
    · exact ⟨0, Nat.zero_le _, by simp [cscanAddChannels, hb, chanPairs]⟩
    · obtain ⟨m, hm, he⟩ := ih (put (put st k.chanTag) c)
      refine ⟨m + 1, by omega, ?_⟩
      simp only [cscanAddChannels]
      rw [if_neg hb, he]
      simp [put, chanPairs, Prod.ext_iff, List.append_assoc]
      omega

theorem cscanAddChannels_bound (k : CscanConsts) (bl c : Nat) :
    ∀ (i : Nat) (st : List Nat × Nat), st.2 + 8 ≤ bl →
      (cscanAddChannels k bl c i st).2 + 8 ≤ bl := by
  intro i
  induction i with
  | zero => intro st h; simpa [cscanAddChannels] using h
  | succ i ih =>
    intro st h
    by_cases hb : bl ≤ st.2 + 12
    · simpa [cscanAddChannels, hb] using h
    · have h2 : (put (put st k.chanTag) c).2 + 8 ≤ bl := by simp [put]; omega
      have h3 := ih (put (put st k.chanTag) c) h2
      simpa [cscanAddChannels, hb] using h3

theorem cscanAddChannels_full (k : CscanConsts) (bl c : Nat) :
    ∀ (i : Nat) (st : List Nat × Nat), st.2 + 2 * i + 11 ≤ bl →
      cscanAddChannels k bl c i st =
        (st.1 ++ chanPairs k.chanTag c i, st.2 + 2 * i) := by
  intro i
  induction i with
  | zero => intro st h; simp [cscanAddChannels, chanPairs]
  | succ i ih =>
    intro st h
    have hb : ¬ bl ≤ st.2 + 12 := by omega
    have h2 : (put (put st k.chanTag) c).2 + 2 * i + 11 ≤ bl := by simp [put]; omega
    simp only [cscanAddChannels]
    rw [if_neg hb, ih _ h2]
    simp [put, chanPairs, Prod.ext_iff, List.append_assoc]
    omega

/-- Shape, capacity bound and exact repetition count of cscanEncode for a
nonzero channel, in one statement: the output is the header, 1 + m channel
sections, then one passive-dwell section carrying the default dwell, one
home-dwell section and one scan-type section; m never exceeds
(d - 1) / dwellDef, the total stays within buf_len whenever the header and
the minimal sections fit, and m is exactly (d - 1) / dwellDef when all
repetitions fit. -/
theorem cscanEncode_pos (k : CscanConsts) (bl ch d : Nat) (hch : ch ≠ 0) :
    ∃ m, m ≤ (d - 1) / k.dwellDef ∧
      cscanEncode k bl ch d =
        (k.header ++ chanPairs k.chanTag ch (1 + m) ++
          ([k.pasvTag, k.dwellDef % 256, k.dwellDef / 256 % 256] ++
           [k.homeTag, k.homeDwell % 256, k.homeDwell / 256 % 256] ++
           [k.typeTag, k.typePassive]),
         k.header.length + 2 * (1 + m) + 8) ∧
      (k.header.length + 10 ≤ bl → k.header.length + 2 * (1 + m) + 8 ≤ bl) ∧
      (k.header.length + 13 + 2 * ((d - 1) / k.dwellDef) ≤ bl →
        m = (d - 1) / k.dwellDef) := by
  obtain ⟨m, hm, he⟩ := cscanAddChannels_shape k bl ch ((d - 1) / k.dwellDef)
    (put (put (k.header, k.header.length) k.chanTag) ch)
  refine ⟨m, hm, ?_, ?_, ?_⟩
  · simp only [cscanEncode]
    rw [if_pos hch, if_pos hch, he]
    have h1 : chanPairs k.chanTag ch (1 + m) = k.chanTag :: ch :: chanPairs k.chanTag ch m := by
      rw [Nat.add_comm]; simp [chanPairs]
    simp [put, h1, Prod.ext_iff, List.append_assoc]
    omega
  · intro hcap
    have hst : (put (put (k.header, k.header.length) k.chanTag) ch).2 + 8 ≤ bl := by
      simp [put]; omega
    have hbd := cscanAddChannels_bound k bl ch ((d - 1) / k.dwellDef) _ hst
    rw [he] at hbd
    simp [put] at hbd
    omega
  · intro hfit
    have hst : (put (put (k.header, k.header.length) k.chanTag) ch).2 +
        2 * ((d - 1) / k.dwellDef) + 11 ≤ bl := by
      simp [put]; omega
    have hfl := cscanAddChannels_full k bl ch ((d - 1) / k.dwellDef) _ hst
    rw [he] at hfl
    have := congrArg Prod.snd hfl
    simp [put] at this
    omega

/-- Shape of cscanEncode for channel 0: one channel section with channel
byte 0, no repetitions, and a passive-dwell section carrying the dwell time
clamped to dwellMax, low byte first. -/
theorem cscanEncode_zero (k : CscanConsts) (bl d : Nat) :
    cscanEncode k bl 0 d =
      (k.header ++ [k.chanTag, 0] ++
        ([k.pasvTag, min d k.dwellMax % 256, min d k.dwellMax / 256 % 256] ++
         [k.homeTag, k.homeDwell % 256, k.homeDwell / 256 % 256] ++
         [k.typeTag, k.typePassive]),
       k.header.length + 10) := by
  simp [cscanEncode, put, Prod.ext_iff, List.append_assoc]

/-- Claim C3: for every input command whose parsed channel C is positive
and parsed dwell time D is positive, and every buffer capacity at least
the header size plus the minimal sections (one channel, one passive-dwell,
one home-dwell, one scan-type: 10 bytes), wpa_driver_wext_set_cscan_params
writes at most capacity bytes, the returned byte count equals the bytes
written, and the encoding ends in exactly one passive-dwell section, one
home-dwell section and one scan-type section. -/
theorem claim_C3 (k : CscanConsts) (buf_len : Nat) (cmd : List Char)
    (ch d : Nat) (hparse : cscanParse k cmd = (ch, d)) (hch : 0 < ch)
    (hd : 0 < d) (hcap : k.header.length + 10 ≤ buf_len) :
    (wpa_driver_wext_set_cscan_params k buf_len cmd).1.length ≤ buf_len ∧
    (wpa_driver_wext_set_cscan_params k buf_len cmd).2 =
      (wpa_driver_wext_set_cscan_params k buf_len cmd).1.length ∧
    ∃ m, (wpa_driver_wext_set_cscan_params k buf_len cmd).1 =
      k.header ++ chanPairs k.chanTag ch (1 + m) ++
        ([k.pasvTag, k.dwellDef % 256, k.dwellDef / 256 % 256] ++
         [k.homeTag, k.homeDwell % 256, k.homeDwell / 256 % 256] ++
         [k.typeTag, k.typePassive]) := by
  unfold wpa_driver_wext_set_cscan_params
  rw [hparse]
  obtain ⟨m, hm, he, hb, hf⟩ := cscanEncode_pos k buf_len ch d (by omega)
  simp only at he ⊢
  rw [he]
  have hlen : (k.header ++ chanPairs k.chanTag ch (1 + m) ++
      ([k.pasvTag, k.dwellDef % 256, k.dwellDef / 256 % 256] ++
       [k.homeTag, k.homeDwell % 256, k.homeDwell / 256 % 256] ++
       [k.typeTag, k.typePassive])).length =
      k.header.length + 2 * (1 + m) + 8 := by
    simp [chanPairs_length]
    omega
  refine ⟨?_, ?_, ⟨m, rfl⟩⟩
  · rw [hlen]; exact hb hcap
  · rw [hlen]

/-- Claim C9: for an input command whose parsed channel is 0, the encoder
emits exactly one channel section with channel byte 0 and no repetitions,
and the passive-dwell section carries the parsed dwell time clamped to
dwellMax, low byte first. -/
theorem claim_C9 (k : CscanConsts) (buf_len : Nat) (cmd : List Char)
    (d : Nat) (hparse : cscanParse k cmd = (0, d)) :
    wpa_driver_wext_set_cscan_params k buf_len cmd =
      (k.header ++ [k.chanTag, 0] ++
        ([k.pasvTag, min d k.dwellMax % 256, min d k.dwellMax / 256 % 256] ++
         [k.homeTag, k.homeDwell % 256, k.homeDwell / 256 % 256] ++
         [k.typeTag, k.typePassive]),
       k.header.length + 10) := by
  unfold wpa_driver_wext_set_cscan_params
  rw [hparse]
  exact cscanEncode_zero k buf_len d

/-- Claim C10: for an input command whose parsed channel is nonzero, the
passive-dwell section always carries the default dwell constant regardless
of any ",TIME=" parameter, and the parsed dwell only determines the number
of extra channel-section repetitions, (d - 1) / dwellDef of them whenever
they fit the capacity. -/
theorem claim_C10 (k : CscanConsts) (buf_len : Nat) (cmd : List Char)
    (ch d : Nat) (hparse : cscanParse k cmd = (ch, d)) (hch : ch ≠ 0) :
    ∃ m, m ≤ (d - 1) / k.dwellDef ∧
      wpa_driver_wext_set_cscan_params k buf_len cmd =
        (k.header ++ chanPairs k.chanTag ch (1 + m) ++
          ([k.pasvTag, k.dwellDef % 256, k.dwellDef / 256 % 256] ++
           [k.homeTag, k.homeDwell % 256, k.homeDwell / 256 % 256] ++
           [k.typeTag, k.typePassive]),
         k.header.length + 2 * (1 + m) + 8) ∧
      (k.header.length + 13 + 2 * ((d - 1) / k.dwellDef) ≤ buf_len →
        m = (d - 1) / k.dwellDef) := by
  unfold wpa_driver_wext_set_cscan_params
  rw [hparse]
  obtain ⟨m, hm, he, hb, hf⟩ := cscanEncode_pos k buf_len ch d hch
  exact ⟨m, hm, he, hf⟩

theorem claim_C3_witness :
    cscanParse cscanK0 ("CSCAN1,TIME=600".data) = (1, 600) ∧
    ((wpa_driver_wext_set_cscan_params cscanK0 64 ("CSCAN1,TIME=600".data)).1.length ≤ 64 ∧
     (wpa_driver_wext_set_cscan_params cscanK0 64 ("CSCAN1,TIME=600".data)).2 =
       (wpa_driver_wext_set_cscan_params cscanK0 64 ("CSCAN1,TIME=600".data)).1.length ∧
     ∃ m, (wpa_driver_wext_set_cscan_params cscanK0 64 ("CSCAN1,TIME=600".data)).1 =
       cscanK0.header ++ chanPairs cscanK0.chanTag 1 (1 + m) ++
         ([cscanK0.pasvTag, cscanK0.dwellDef % 256, cscanK0.dwellDef / 256 % 256] ++
          [cscanK0.homeTag, cscanK0.homeDwell % 256, cscanK0.homeDwell / 256 % 256] ++
          [cscanK0.typeTag, cscanK0.typePassive])) :=
  ⟨by decide, claim_C3 cscanK0 64 ("CSCAN1,TIME=600".data) 1 600 (by decide)
    (by decide) (by decide) (by decide)⟩

theorem claim_C9_witness :
    cscanParse cscanK0 ("CSCAN0,TIME=5000".data) = (0, 5000) ∧
    wpa_driver_wext_set_cscan_params cscanK0 64 ("CSCAN0,TIME=5000".data) =
      (cscanK0.header ++ [cscanK0.chanTag, 0] ++
        ([cscanK0.pasvTag, min 5000 cscanK0.dwellMax % 256,
          min 5000 cscanK0.dwellMax / 256 % 256] ++
         [cscanK0.homeTag, cscanK0.homeDwell % 256, cscanK0.homeDwell / 256 % 256] ++
         [cscanK0.typeTag, cscanK0.typePassive]),
       cscanK0.header.length + 10) :=
  ⟨by decide, claim_C9 cscanK0 64 ("CSCAN0,TIME=5000".data) 5000 (by decide)⟩

theorem claim_C10_witness :
    cscanParse cscanK0 ("CSCAN6,TIME=600".data) = (6, 600) ∧ (6 : Nat) ≠ 0 ∧
    (∃ m, m ≤ (600 - 1) / cscanK0.dwellDef ∧
      wpa_driver_wext_set_cscan_params cscanK0 64 ("CSCAN6,TIME=600".data) =
        (cscanK0.header ++ chanPairs cscanK0.chanTag 6 (1 + m) ++
          ([cscanK0.pasvTag, cscanK0.dwellDef % 256, cscanK0.dwellDef / 256 % 256] ++
           [cscanK0.homeTag, cscanK0.homeDwell % 256, cscanK0.homeDwell / 256 % 256] ++
           [cscanK0.typeTag, cscanK0.typePassive]),
         cscanK0.header.length + 2 * (1 + m) + 8) ∧
      (cscanK0.header.length + 13 + 2 * ((600 - 1) / cscanK0.dwellDef) ≤ 64 →
        m = (600 - 1) / cscanK0.dwellDef)) :=
  ⟨by decide, by decide,
   claim_C10 cscanK0 64 ("CSCAN6,TIME=600".data) 6 600 (by decide) (by decide)⟩

/-! ### Lemmas about the PNO setup encoder -/

theorem pnoElig_iff (n : PnoNet) :
    pnoElig n = true ↔ n.disabled = false ∧ n.ssid.length ≤ 32 := by
  simp [pnoElig]

theorem hexField_length (v len : Nat) : (hexField v len).length = len := by
  simp [hexField]
  omega

theorem pnoTrailer_length (k : PnoConsts) :
    (pnoTrailer k).length = pnoNonssidSize k + 1 := by
  simp [pnoTrailer, pnoNonssidSize, hexField_length]
  omega

theorem pnoAddSsids_bound (k : PnoConsts) :
    ∀ (ns : List PnoNet) (i : Nat) (b : List Nat),
      b.length + pnoNonssidSize k + 1 ≤ k.cap →
      (pnoAddSsids k ns i b).length + pnoNonssidSize k + 1 ≤ k.cap := by
  intro ns
  induction ns with
  | nil => intro i b h; simpa [pnoAddSsids] using h
  | cons n rest ih =>
    intro i b h
    by_cases hi : i < k.amount
    · by_cases hg : k.cap ≤ b.length + 2 + 32 + pnoNonssidSize k + 1
      · simpa [pnoAddSsids, hi, hg] using h
      · by_cases he : pnoElig n = true
        · have hlen : n.ssid.length ≤ 32 := ((pnoElig_iff n).mp he).2
          have h2 : (b ++ pnoSsidSection k n).length + pnoNonssidSize k + 1 ≤ k.cap := by
            simp [pnoSsidSection]; omega
          have h3 := ih (i + 1) (b ++ pnoSsidSection k n) h2
          simpa [pnoAddSsids, hi, hg, he] using h3
        · have h3 := ih i b h
          simpa [pnoAddSsids, hi, hg, he] using h3
    · simpa [pnoAddSsids, hi] using h

theorem pnoAddSsids_full (k : PnoConsts) :
    ∀ (ns : List PnoNet) (i : Nat) (b : List Nat), i ≤ k.amount →
      b.length + 34 * (k.amount - i) + pnoNonssidSize k + 2 ≤ k.cap →
      pnoAddSsids k ns i b =
        b ++ (((ns.filter pnoElig).take (k.amount - i)).map (pnoSsidSection k)).flatten := by
  intro ns
  induction ns with
  | nil => intro i b hi hc; simp [pnoAddSsids]
  | cons n rest ih =>
    intro i b hi hc
    by_cases hlt : i < k.amount
    · have hg : ¬ k.cap ≤ b.length + 2 + 32 + pnoNonssidSize k + 1 := by omega
      by_cases he : pnoElig n = true
      · have hlen : n.ssid.length ≤ 32 := ((pnoElig_iff n).mp he).2
        have hrec := ih (i + 1) (b ++ pnoSsidSection k n) (by omega) (by
          simp [pnoSsidSection]; omega)
        have hm : k.amount - i = (k.amount - (i + 1)) + 1 := by omega
        simp only [pnoAddSsids]
        rw [if_pos hlt, if_neg hg, if_pos he, hrec, List.filter_cons, if_pos he, hm]
        simp [List.append_assoc]
      · have hrec := ih i b hi hc
        simp only [pnoAddSsids]
        rw [if_pos hlt, if_neg hg, if_neg he, hrec, List.filter_cons, if_neg he]
    · have hm : k.amount - i = 0 := by omega
      simp [pnoAddSsids, hlt, hm]

/-- Claim C4: for every configured-network list, the PNO setup encoder
writes no more bytes than the buffer capacity WEXT_PNO_MAX_COMMAND_SIZE,
provided the header, TLV preamble and trailing sections themselves fit
(the boundary the spec assigns to the caller): the loop stops adding SSID
sections as soon as the remaining space could not hold one more maximal
SSID section plus the trailing fixed sections plus one byte. -/
theorem claim_C4 (k : PnoConsts) (nets : List PnoNet)
    (hcap : k.header.length + 4 + pnoNonssidSize k + 1 ≤ k.cap) :
    (pnoSetupBuf k nets).length ≤ k.cap := by
  have h0 : (pnoPreamble k).length + pnoNonssidSize k + 1 ≤ k.cap := by
    simp [pnoPreamble]; omega
  have h1 := pnoAddSsids_bound k nets 0 (pnoPreamble k) h0
  have h2 := pnoTrailer_length k
  simp [pnoSetupBuf]
  omega

theorem claim_C4_witness :
    pnoK0.header.length + 4 + pnoNonssidSize pnoK0 + 1 ≤ pnoK0.cap ∧
    (pnoSetupBuf pnoK0 netsCE).length ≤ pnoK0.cap :=
  ⟨by decide, claim_C4 pnoK0 netsCE (by decide)⟩

/-- Claim C5 (amended): when the buffer capacity is large enough that the
space guard never fires before the maximum count is reached (capacity at
least header + preamble + amount maximal SSID sections + trailing sections
+ slack), the encoder emits exactly the SSID sections of the first
`amount` eligible entries in list order, where an entry is eligible iff
its disabled flag is clear and its SSID length is at most 32; disabled and
over-length entries are skipped without consuming a slot, and a list with
at least `amount` eligible entries yields exactly `amount` sections.  (As
stated, without the capacity proviso, the claim fails: see the
counterexample.) -/
theorem claim_C5 (k : PnoConsts) (nets : List PnoNet)
    (hcap : k.header.length + 4 + 34 * k.amount + pnoNonssidSize k + 2 ≤ k.cap) :
    pnoSetupBuf k nets = pnoPreamble k ++ pnoClaimSections k nets ++ pnoTrailer k ∧
    (k.amount ≤ (nets.filter pnoElig).length →
      ((nets.filter pnoElig).take k.amount).length = k.amount) := by
  constructor
  · have h := pnoAddSsids_full k nets 0 (pnoPreamble k) (Nat.zero_le _) (by
      simp [pnoPreamble]; omega)
    simp only [Nat.sub_zero] at h
    simp [pnoSetupBuf, pnoClaimSections, h, List.append_assoc]
  · intro hle
    simp [List.length_take]
    omega

theorem claim_C5_witness :
    pnoK2.header.length + 4 + 34 * pnoK2.amount + pnoNonssidSize pnoK2 + 2 ≤ pnoK2.cap ∧
    (pnoSetupBuf pnoK2 netsCE =
       pnoPreamble pnoK2 ++ pnoClaimSections pnoK2 netsCE ++ pnoTrailer pnoK2 ∧
     (pnoK2.amount ≤ (netsCE.filter pnoElig).length →
       ((netsCE.filter pnoElig).take pnoK2.amount).length = pnoK2.amount)) :=
  ⟨by decide, claim_C5 pnoK2 netsCE (by decide)⟩

/-- Claim C5 counterexample: with two SSID slots but a 60-byte buffer, the
space guard fires before any SSID section is written, so a list of three
eligible networks (more than the maximum count) produces zero SSID
sections, not exactly `amount` of them: the output coincides with the
output for the empty network list and differs from the claimed encoding. -/
theorem claim_C5_counterexample :
    pnoKSmall.amount < (netsCE.filter pnoElig).length ∧
    pnoSetupBuf pnoKSmall netsCE = pnoSetupBuf pnoKSmall [] ∧
    pnoSetupBuf pnoKSmall netsCE ≠
      pnoPreamble pnoKSmall ++ pnoClaimSections pnoKSmall netsCE ++ pnoTrailer pnoKSmall :=
  ⟨by decide, by decide, by decide⟩

/-! ### Lemmas about the command dispatcher -/

theorem listStartsWith_iff_take {p l : List Char} :
    listStartsWith p l = true ↔ l.take p.length = p := by
  induction p generalizing l with
  | nil => simp [listStartsWith]
  | cons a ps ih =>
    cases l with
    | nil => simp [listStartsWith]
    | cons c cs =>
      simp only [listStartsWith, Bool.and_eq_true, beq_iff_eq, List.length_cons,
        List.take_succ_cons, List.cons.injEq, ih]
      constructor
      · rintro ⟨h1, h2⟩; exact ⟨h1.symm, h2⟩
      · rintro ⟨h1, h2⟩; exact ⟨h1.symm, h2⟩

theorem ne_of_startsWith {p l lit : List Char} (h : listStartsWith p l = true)
    (hlit : listStartsWith p lit = false) : l ≠ lit := by
  intro he
  rw [he] at h
  rw [h] at hlit
  cases hlit

theorem dispatchRewrite_go_default (P : DrvParams) (drv : DrvState)
    (nets : Option (List PnoNet)) (pnoRet : Int) (cmd : List Char)
    (h1 : lcList cmd ≠ ("rssi-approx".data))
    (h2 : listStartsWith ("scan-channels".data) (lcList cmd) = false)
    (h3 : lcList cmd ≠ ("stop".data))
    (h4 : lcList cmd ≠ ("reload".data))
    (h5 : lcList cmd ≠ ("bgscan-start".data))
    (h6 : lcList cmd ≠ ("bgscan-stop".data)) :
    dispatchRewrite P drv nets pnoRet cmd = .go cmd drv [] := by
  unfold dispatchRewrite
  rw [if_neg h1, if_neg (by simp [h2]), if_neg h3, if_neg h4, if_neg h5, if_neg h6]

theorem postIoctl_zero (P : DrvParams) (drv : DrvState) (evs : List (List Char))
    (cmd : List Char) (cp : Option (List Nat × Nat)) :
    0 ≤ (postIoctl P drv evs cmd cp 0).ret ∧
    (postIoctl P drv evs cmd cp 0).failBranch = false ∧
    (postIoctl P drv evs cmd cp 0).drv.errors = 0 ∧
    (postIoctl P drv evs cmd cp 0).events = evs ∧
    (postIoctl P drv evs cmd cp 0).ioctlIssued = true ∧
    (postIoctl P drv evs cmd cp 0).cmdFinal = cmd := by
  unfold postIoctl
  rw [if_neg (by omega : ¬ (0 : Int) < 0)]
  split
  · simp [Int.natCast_nonneg]
  · split
    · simp
    · split
      · simp
      · split
        · simp
        · simp

theorem afterRewrite_ok (P : DrvParams) (s : SuppState) (buf_len : Nat)
    (cmd1 : List Char) (drv1 : DrvState) (evs : List (List Char)) :
    0 ≤ (afterRewrite P s buf_len cmd1 drv1 evs).ret ∧
    (afterRewrite P s buf_len cmd1 drv1 evs).failBranch = false := by
  unfold afterRewrite
  split
  · split
    · have h := postIoctl_zero P drv1 evs cmd1
        (some (wpa_driver_wext_set_cscan_params P.cscan buf_len cmd1))
      exact ⟨h.1, h.2.1⟩
    · simp
  · have h := postIoctl_zero P drv1 evs cmd1 none
    exact ⟨h.1, h.2.1⟩

theorem dispatchRewrite_early_cases (P : DrvParams) (drv : DrvState)
    (nets : Option (List PnoNet)) (pnoRet : Int) (cmd : List Char) (r : CmdResult)
    (h : dispatchRewrite P drv nets pnoRet cmd = .early r) :
    (r.ret = 0 ∧ r.failBranch = false) ∨
    (lcList cmd = ("bgscan-start".data) ∧
     r.ret = (wpa_driver_set_backgroundscan_params P nets pnoRet drv).ret ∧
     r.failBranch = false) := by
  unfold dispatchRewrite at h
  split at h
  · exact absurd h (by simp)
  · split at h
    · exact absurd h (by simp)
    · split at h
      · exact absurd h (by simp)
      · split at h
        · left
          injection h with h'
          rw [← h']
          exact ⟨rfl, rfl⟩
        · split at h
          · rename_i hcmd
            split at h
            · injection h with h'
              right
              rw [← h']
              exact ⟨hcmd, rfl, rfl⟩
            · exact absurd h (by simp)
          · split at h
            · exact absurd h (by simp)
            · exact absurd h (by simp)

/-- Claim C1: after the SIOCSIWPRIV ioctl at line 329 the result is
overridden to success (line 338), so for every command that passes the
Stopped-state guard and, for BGSCAN-START, the PNO-setup step, the return
value of wpa_driver_wext_driver_cmd is non-negative regardless of the
ioctl result, and the post-ioctl failure branch (error-counter increment
and possible HANGED event) never executes in this function. -/
theorem claim_C1 (P : DrvParams) (drv : DrvState) (s : SuppState)
    (nets : Option (List PnoNet)) (pnoRet ioctlRet : Int) (cmd : List Char)
    (buf_len : Nat)
    (hguard : ¬ (drv.driver_is_started = false ∧ lcList cmd ≠ ("start".data)))
    (hbg : lcList cmd = ("bgscan-start".data) →
      0 ≤ (wpa_driver_set_backgroundscan_params P nets pnoRet drv).ret) :
    0 ≤ (wpa_driver_wext_driver_cmd P drv s nets pnoRet ioctlRet cmd buf_len).ret ∧
    (wpa_driver_wext_driver_cmd P drv s nets pnoRet ioctlRet cmd buf_len).failBranch
      = false := by
  unfold wpa_driver_wext_driver_cmd
  rw [if_neg hguard]
  cases hD : dispatchRewrite P drv nets pnoRet cmd with
  | early r =>
    rcases dispatchRewrite_early_cases P drv nets pnoRet cmd r hD with
      ⟨h0, hf⟩ | ⟨hc, hr, hf⟩
    · simp [h0, hf]
    · have hb := hbg hc
      simp only []
      constructor
      · omega
      · exact hf
  | go cmd1 drv1 evs =>
    simp only []
    exact afterRewrite_ok P s buf_len cmd1 drv1 evs

theorem claim_C1_witness :
    ¬ ((⟨true, 0, false⟩ : DrvState).driver_is_started = false ∧
       lcList ("MACADDR".data) ≠ ("start".data)) ∧
    (0 ≤ (wpa_driver_wext_driver_cmd P0 ⟨true, 0, false⟩ ⟨false, 0⟩ none 0 (-7)
            ("MACADDR".data) 128).ret ∧
     (wpa_driver_wext_driver_cmd P0 ⟨true, 0, false⟩ ⟨false, 0⟩ none 0 (-7)
            ("MACADDR".data) 128).failBranch = false) :=
  ⟨by decide, claim_C1 P0 ⟨true, 0, false⟩ ⟨false, 0⟩ none 0 (-7) ("MACADDR".data) 128
    (by decide) (by decide)⟩

theorem bgIterate_add (P : DrvParams) (nets : Option (List PnoNet)) (pnoRet : Int)
    (a b : Nat) : ∀ st, bgIterate P nets pnoRet (a + b) st =
      bgIterate P nets pnoRet b (bgIterate P nets pnoRet a st) := by
  induction a with
  | zero => intro st; simp [bgIterate]
  | succ a ih =>
    intro st
    have h1 : a + 1 + b = (a + b) + 1 := by omega
    rw [h1]
    show bgIterate P nets pnoRet (a + b) _ = _
    rw [ih]
    simp only [bgIterate]

theorem bg_step_fail_low (P : DrvParams) (ns : List PnoNet) (pnoRet : Int)
    (drv : DrvState) (hneg : pnoRet < 0) (hlow : drv.errors + 1 ≤ P.thresh) :
    wpa_driver_set_backgroundscan_params P (some ns) pnoRet drv =
      ⟨pnoRet, { drv with errors := drv.errors + 1 }, [], pnoSetupBuf P.pno ns⟩ := by
  simp only [wpa_driver_set_backgroundscan_params]
  rw [if_pos hneg, if_neg (by omega)]

theorem bg_step_fail_high (P : DrvParams) (ns : List PnoNet) (pnoRet : Int)
    (drv : DrvState) (hneg : pnoRet < 0) (hhigh : P.thresh < drv.errors + 1) :
    wpa_driver_set_backgroundscan_params P (some ns) pnoRet drv =
      ⟨pnoRet, { drv with errors := 0 }, [hangedMsg], pnoSetupBuf P.pno ns⟩ := by
  simp only [wpa_driver_set_backgroundscan_params]
  rw [if_pos hneg, if_pos hhigh]

theorem bgIterate_fail_below (P : DrvParams) (ns : List PnoNet) (pnoRet : Int)
    (hneg : pnoRet < 0) :
    ∀ (j : Nat) (drv : DrvState) (E : List (List Char)),
      drv.errors + j ≤ P.thresh →
      bgIterate P (some ns) pnoRet j (drv, E) =
        ({ drv with errors := drv.errors + j }, E) := by
  intro j
  induction j with
  | zero =>
    rintro ⟨st, er, bg⟩ E h
    simp [bgIterate]
  | succ j ih =>
    rintro ⟨st, er, bg⟩ E h
    simp only [bgIterate]
    rw [bg_step_fail_low P ns pnoRet ⟨st, er, bg⟩ hneg (by simp at h ⊢; omega)]
    simp only [List.append_nil]
    rw [ih ⟨st, er + 1, bg⟩ E (by simp at h ⊢; omega)]
    simp
    omega

/-- Claim C2 (amended): the stated error-counter policy holds for the
SIOCSIWPRIV ioctl issued inside wpa_driver_set_backgroundscan_params: a
failure increments the counter, the failure that takes it past the
threshold resets it to 0 and emits exactly one HANGED event, threshold+1
consecutive failures from a zero counter yield exactly one HANGED event
and a zero counter, and a success resets the counter to 0 unconditionally.
(In wpa_driver_wext_driver_cmd itself the claim fails, because the success
override of line 338 routes every ioctl outcome through the success path:
see the counterexample.) -/
theorem claim_C2 (P : DrvParams) (ns : List PnoNet) (pnoRet : Int)
    (drv : DrvState) :
    (pnoRet < 0 → P.thresh < drv.errors + 1 →
      (wpa_driver_set_backgroundscan_params P (some ns) pnoRet drv).drv.errors = 0 ∧
      (wpa_driver_set_backgroundscan_params P (some ns) pnoRet drv).events
        = [hangedMsg]) ∧
    (pnoRet < 0 → drv.errors + 1 ≤ P.thresh →
      (wpa_driver_set_backgroundscan_params P (some ns) pnoRet drv).drv.errors
        = drv.errors + 1 ∧
      (wpa_driver_set_backgroundscan_params P (some ns) pnoRet drv).events = []) ∧
    (0 ≤ pnoRet →
      (wpa_driver_set_backgroundscan_params P (some ns) pnoRet drv).drv.errors = 0 ∧
      (wpa_driver_set_backgroundscan_params P (some ns) pnoRet drv).events = []) ∧
    (pnoRet < 0 → drv.errors = 0 →
      (bgIterate P (some ns) pnoRet (P.thresh + 1) (drv, [])).1.errors = 0 ∧
      (bgIterate P (some ns) pnoRet (P.thresh + 1) (drv, [])).2 = [hangedMsg]) := by
  refine ⟨?_, ?_, ?_, ?_⟩
  · intro hneg hhigh
    rw [bg_step_fail_high P ns pnoRet drv hneg hhigh]
    exact ⟨rfl, rfl⟩
  · intro hneg hlow
    rw [bg_step_fail_low P ns pnoRet drv hneg hlow]
    exact ⟨rfl, rfl⟩
  · intro hpos
    simp only [wpa_driver_set_backgroundscan_params]
    rw [if_neg (by omega)]
    exact ⟨rfl, rfl⟩
  · intro hneg h0
    rw [bgIterate_add P (some ns) pnoRet P.thresh 1 (drv, [])]
    rw [bgIterate_fail_below P ns pnoRet hneg P.thresh drv [] (by omega)]
    simp only [bgIterate]
    rw [bg_step_fail_high P ns pnoRet { drv with errors := drv.errors + P.thresh }
      hneg (by simp; omega)]
    simp

theorem claim_C2_witness :
    ((-3 : Int) < 0 ∧ (⟨true, 0, false⟩ : DrvState).errors = 0) ∧
    ((bgIterate P0 (some netsCE) (-3) (P0.thresh + 1)
        (⟨true, 0, false⟩, [])).1.errors = 0 ∧
     (bgIterate P0 (some netsCE) (-3) (P0.thresh + 1)
        (⟨true, 0, false⟩, [])).2 = [hangedMsg]) :=
  ⟨⟨by decide, by decide⟩,
   (claim_C2 P0 netsCE (-3) ⟨true, 0, false⟩).2.2.2 (by decide) (by decide)⟩

/-- Claim C2 counterexample: in wpa_driver_wext_driver_cmd a failed ioctl
does not increment the error counter and cannot emit a HANGED event, even
when the counter sits exactly at the threshold: with errors = 4 (the
threshold) and an ioctl result of -1, the claim demands an increment past
the threshold, one HANGED event and a reset, but the code resets the
counter through the success path and emits nothing, because line 338
overrides the ioctl result with success. -/
theorem claim_C2_counterexample :
    (wpa_driver_wext_driver_cmd P0 ⟨true, 4, false⟩ ⟨false, 0⟩ none 0 (-1)
       ("GETBAND".data) 128).drv.errors = 0 ∧
    (wpa_driver_wext_driver_cmd P0 ⟨true, 4, false⟩ ⟨false, 0⟩ none 0 (-1)
       ("GETBAND".data) 128).events = [] ∧
    (wpa_driver_wext_driver_cmd P0 ⟨true, 4, false⟩ ⟨false, 0⟩ none 0 (-1)
       ("GETBAND".data) 128).failBranch = false :=
  ⟨by decide, by decide, by decide⟩

/-- Claim C6: while driver_is_started is false, every command other than
START (case-insensitively) is rejected with -1 before any rewriting, ioctl
or state change; START is accepted unconditionally from the Stopped state
(the line-338 override makes the ioctl outcome irrelevant), after which
driver_is_started is true.  The two side conditions keep the abstract
RSSI_CMD / LINKSPEED_CMD rewrite strings distinct from START, as their
concrete values are. -/
theorem claim_C6 (P : DrvParams) (drv : DrvState) (s : SuppState)
    (nets : Option (List PnoNet)) (pnoRet ioctlRet : Int) (cmd : List Char)
    (buf_len : Nat) (hds : drv.driver_is_started = false)
    (hr : lcList P.rssiCmd ≠ ("start".data))
    (hl : lcList P.linkspeedCmd ≠ ("start".data)) :
    (lcList cmd ≠ ("start".data) →
      wpa_driver_wext_driver_cmd P drv s nets pnoRet ioctlRet cmd buf_len =
        ⟨-1, drv, [], false, false, false, false, none, cmd⟩) ∧
    (lcList cmd = ("start".data) →
      (wpa_driver_wext_driver_cmd P drv s nets pnoRet ioctlRet cmd buf_len).ret = 0 ∧
      (wpa_driver_wext_driver_cmd P drv s nets pnoRet ioctlRet cmd
        buf_len).drv.driver_is_started = true) := by
  constructor
  · intro hne
    unfold wpa_driver_wext_driver_cmd
    rw [if_pos ⟨hds, hne⟩]
  · intro heq
    unfold wpa_driver_wext_driver_cmd
    rw [if_neg (by simp [heq])]
    rw [dispatchRewrite_go_default P drv nets pnoRet cmd
      (by rw [heq]; decide) (by rw [heq]; decide) (by rw [heq]; decide)
      (by rw [heq]; decide) (by rw [heq]; decide) (by rw [heq]; decide)]
    simp only []
    unfold afterRewrite
    rw [heq, if_neg (by decide)]
    unfold postIoctl
    rw [if_neg (by omega : ¬ (0 : Int) < 0)]
    rw [if_neg ?hq, if_pos heq]
    case hq =>
      rintro (h | h | h | h | h)
      · exact hr (h.symm.trans heq)
      · exact hl (h.symm.trans heq)
      · exact absurd (heq.symm.trans h) (by decide)
      · exact absurd (heq.symm.trans h) (by decide)
      · exact absurd (heq.symm.trans h) (by decide)
    exact ⟨rfl, rfl⟩

theorem claim_C6_witness :
    (⟨false, 2, false⟩ : DrvState).driver_is_started = false ∧
    lcList P0.rssiCmd ≠ ("start".data) ∧
    lcList P0.linkspeedCmd ≠ ("start".data) ∧
    ((lcList ("StArT".data) ≠ ("start".data) →
       wpa_driver_wext_driver_cmd P0 ⟨false, 2, false⟩ ⟨false, 0⟩ none 0 (-9)
         ("StArT".data) 128 =
         ⟨-1, ⟨false, 2, false⟩, [], false, false, false, false, none,
          ("StArT".data)⟩) ∧
     (lcList ("StArT".data) = ("start".data) →
       (wpa_driver_wext_driver_cmd P0 ⟨false, 2, false⟩ ⟨false, 0⟩ none 0 (-9)
          ("StArT".data) 128).ret = 0 ∧
       (wpa_driver_wext_driver_cmd P0 ⟨false, 2, false⟩ ⟨false, 0⟩ none 0 (-9)
          ("StArT".data) 128).drv.driver_is_started = true)) :=
  ⟨by decide, by decide, by decide,
   claim_C6 P0 ⟨false, 2, false⟩ ⟨false, 0⟩ none 0 (-9) ("StArT".data) 128
     (by decide) (by decide) (by decide)⟩

/-- Claim C7: a CSCAN command issued while the session is scanning, or
while the supplicant state is strictly between WPA_SCANNING and
WPA_COMPLETED, is a no-op returning success: prior dispatch branches do not
fire, no SIOCSIWPRIV ioctl is issued, no scan timeout is registered, the
session is not marked scanning, no event is emitted and the driver state
is unchanged. -/
theorem claim_C7 (P : DrvParams) (drv : DrvState) (s : SuppState)
    (nets : Option (List PnoNet)) (pnoRet ioctlRet : Int) (cmd : List Char)
    (buf_len : Nat) (hds : drv.driver_is_started = true)
    (hc : listStartsWith ("cscan".data) (lcList cmd) = true)
    (hbusy : s.scanning = true ∨
      (P.wpaScanning < s.wpa_state ∧ s.wpa_state < P.wpaCompleted)) :
    wpa_driver_wext_driver_cmd P drv s nets pnoRet ioctlRet cmd buf_len =
      ⟨0, drv, [], false, false, false, false, none, cmd⟩ := by
  have htk : (lcList cmd).take 5 = ("cscan".data) := by
    have h := listStartsWith_iff_take.mp hc
    rw [show ("cscan".data).length = 5 from rfl] at h
    exact h
  have hne : ∀ lit : List Char, lit.take 5 ≠ ("cscan".data) → lcList cmd ≠ lit := by
    intro lit hlit he
    rw [he] at htk
    exact hlit htk
  have h2 : listStartsWith ("scan-channels".data) (lcList cmd) = false := by
    cases hx : listStartsWith ("scan-channels".data) (lcList cmd) with
    | false => rfl
    | true =>
      have ht := listStartsWith_iff_take.mp hx
      rw [show ("scan-channels".data).length = 13 from rfl] at ht
      have h5 := congrArg (List.take 5) ht
      rw [List.take_take] at h5
      rw [show min 5 13 = 5 from rfl, htk] at h5
      exact absurd h5 (by decide)
  unfold wpa_driver_wext_driver_cmd
  rw [if_neg (by simp [hds])]
  rw [dispatchRewrite_go_default P drv nets pnoRet cmd
    (hne _ (by decide)) h2 (hne _ (by decide)) (hne _ (by decide))
    (hne _ (by decide)) (hne _ (by decide))]
  simp only []
  unfold afterRewrite
  rw [if_pos hc, if_neg ?busy]
  case busy =>
    rintro ⟨hsf, hor⟩
    rcases hbusy with hb | ⟨hlo, hhi⟩
    · rw [hb] at hsf; cases hsf
    · rcases hor with h | h
      · omega
      · omega

theorem claim_C7_witness :
    (⟨true, 3, false⟩ : DrvState).driver_is_started = true ∧
    listStartsWith ("cscan".data) (lcList ("CSCAN2,TIME=40".data)) = true ∧
    ((⟨true, 7⟩ : SuppState).scanning = true ∨
      (P0.wpaScanning < (⟨true, 7⟩ : SuppState).wpa_state ∧
       (⟨true, 7⟩ : SuppState).wpa_state < P0.wpaCompleted)) ∧
    wpa_driver_wext_driver_cmd P0 ⟨true, 3, false⟩ ⟨true, 7⟩ none 0 (-2)
        ("CSCAN2,TIME=40".data) 128 =
      ⟨0, ⟨true, 3, false⟩, [], false, false, false, false, none,
       ("CSCAN2,TIME=40".data)⟩ :=
  ⟨by decide, by decide, by decide,
   claim_C7 P0 ⟨true, 3, false⟩ ⟨true, 7⟩ none 0 (-2) ("CSCAN2,TIME=40".data) 128
     (by decide) (by decide) (by decide)⟩

/-- Claim C8: with the ETSI channel count fixed at 14 as the spec states
(the defining header is not in src/), wpa_driver_get_country_code maps the
ETSI count to EU and the MKK1 count to JP, every other count to US, and
the dispatcher rewrites SCAN-CHANNELS14 to COUNTRY EU. -/
theorem claim_C8 (P : DrvParams) (drv : DrvState) (nets : Option (List PnoNet))
    (pnoRet : Int) (mkk1 : Int) (hm : mkk1 ≠ WEXT_NUMBER_SCAN_CHANNELS_ETSI)
    (hP : P.etsi = WEXT_NUMBER_SCAN_CHANNELS_ETSI) :
    wpa_driver_get_country_code WEXT_NUMBER_SCAN_CHANNELS_ETSI mkk1
      WEXT_NUMBER_SCAN_CHANNELS_ETSI = ("EU".data) ∧
    wpa_driver_get_country_code WEXT_NUMBER_SCAN_CHANNELS_ETSI mkk1 mkk1
      = ("JP".data) ∧
    (∀ c : Int, c ≠ WEXT_NUMBER_SCAN_CHANNELS_ETSI → c ≠ mkk1 →
      wpa_driver_get_country_code WEXT_NUMBER_SCAN_CHANNELS_ETSI mkk1 c
        = ("US".data)) ∧
    dispatchRewrite P drv nets pnoRet ("SCAN-CHANNELS14".data) =
      .go ("COUNTRY EU".data) drv [] := by
  refine ⟨?_, ?_, ?_, ?_⟩
  · unfold wpa_driver_get_country_code
    rw [if_pos rfl]
  · unfold wpa_driver_get_country_code
    rw [if_neg hm, if_pos rfl]
  · intro c hc1 hc2
    unfold wpa_driver_get_country_code
    rw [if_neg hc1, if_neg hc2]
  · unfold dispatchRewrite
    rw [if_neg (by decide), if_pos (by decide)]
    rw [show atoi (("SCAN-CHANNELS14".data).drop 13) = 14 from by decide]
    rw [hP]
    rw [show wpa_driver_get_country_code WEXT_NUMBER_SCAN_CHANNELS_ETSI P.mkk1 14
          = ("EU".data) from by
        unfold wpa_driver_get_country_code
        rw [if_pos (by decide)]]
    rfl

theorem claim_C8_witness :
    (13 : Int) ≠ WEXT_NUMBER_SCAN_CHANNELS_ETSI ∧
    P0.etsi = WEXT_NUMBER_SCAN_CHANNELS_ETSI ∧
    (wpa_driver_get_country_code WEXT_NUMBER_SCAN_CHANNELS_ETSI 13
       WEXT_NUMBER_SCAN_CHANNELS_ETSI = ("EU".data) ∧
     wpa_driver_get_country_code WEXT_NUMBER_SCAN_CHANNELS_ETSI 13 13
       = ("JP".data) ∧
     (∀ c : Int, c ≠ WEXT_NUMBER_SCAN_CHANNELS_ETSI → c ≠ 13 →
       wpa_driver_get_country_code WEXT_NUMBER_SCAN_CHANNELS_ETSI 13 c
         = ("US".data)) ∧
     dispatchRewrite P0 ⟨true, 0, false⟩ none 0 ("SCAN-CHANNELS14".data) =
       .go ("COUNTRY EU".data) ⟨true, 0, false⟩ []) :=
  ⟨by decide, by decide,
   claim_C8 P0 ⟨true, 0, false⟩ none 0 13 (by decide) (by decide)⟩

end DriverCmdWext
